import Mathlib

/-!
Verification of the QuackIR hybrid rank-fusion retrieval subsystem
(`quackir/search/_postgres.py`, `quackir/index/_postgres.py`).

The database engine is abstracted away: a table's schema is a function from
table name to its column names, and a retrieval source is a list of
`(id, sort-key)` rows where the sort key is the evaluated SQL score
expression (vector distance for the dense source, `ts_rank`/BM25 value for
the sparse source).  The SQL window functions (`RANK`, `ROW_NUMBER`),
`LIMIT`, `FULL OUTER JOIN`, `ORDER BY` and the fused-score arithmetic of
`rrf_search` are embedded as executable Lean functions over those lists,
with scores in `ℚ`.
-/

/-- Modelled from the spec: the `SearchType` enum of `quackir._base` (that
module is not under `src/`); the two retrieval kinds are SPARSE and DENSE. -/
inductive SearchType
  | SPARSE
  | DENSE
deriving DecidableEq

/-- Modelled from the spec: the `IndexType` enum of `quackir._base` (that
module is not under `src/`); the two index kinds are SPARSE and DENSE. -/
inductive IndexType
  | SPARSE
  | DENSE
deriving DecidableEq

/-- Error message raised by `PostgresSearcher.get_search_type`
(`search/_postgres.py` line 54); it interpolates the table name. -/
def unknown_search_type_message (table_name : String) : String :=
  "Unknown search type for table " ++ table_name ++
    ". Ensure it has either an \x27embedding\x27 column or a \x27contents\x27 column."

/-- Error message raised by `PostgresIndexer.get_index_type`
(`index/_postgres.py` line 50); it interpolates the table name. -/
def unknown_index_type_message (table_name : String) : String :=
  "Unknown index type for table " ++ table_name ++
    ". Ensure it has either an \x27embedding\x27 column or a \x27contents\x27 column."

/-- `PostgresSearcher.get_search_type` (`search/_postgres.py` lines 45-54).
The `information_schema.columns` lookup is abstracted as `schema`, mapping a
table name to its list of column names. -/
def get_search_type (schema : String → List String) (table_name : String) :
    Except String SearchType :=
  let columns := schema table_name
  if "contents" ∈ columns then Except.ok SearchType.SPARSE
  else if "embedding" ∈ columns then Except.ok SearchType.DENSE
  else Except.error (unknown_search_type_message table_name)

/-- `PostgresIndexer.get_index_type` (`index/_postgres.py` lines 41-50). -/
def get_index_type (schema : String → List String) (table_name : String) :
    Except String IndexType :=
  let columns := schema table_name
  if "contents" ∈ columns then Except.ok IndexType.SPARSE
  else if "embedding" ∈ columns then Except.ok IndexType.DENSE
  else Except.error (unknown_index_type_message table_name)

/-- The table-role resolution step of `PostgresSearcher.rrf_search`
(`search/_postgres.py` lines 101-110):

    sparse_table = table_names[0] if get_search_type(table_names[0]) == SPARSE else table_names[1]
    dense_table  = table_names[1] if get_search_type(table_names[1]) == DENSE  else table_names[0]

A `ValueError` escaping `get_search_type` propagates (the `Except` bind);
otherwise both roles are assigned by the two conditionals, with no
same-kind check. -/
def rrf_resolve_tables (schema : String → List String) (t0 t1 : String) :
    Except String (String × String) := do
  let ty0 ← get_search_type schema t0
  let sparse_table := if ty0 = SearchType.SPARSE then t0 else t1
  let ty1 ← get_search_type schema t1
  let dense_table := if ty1 = SearchType.DENSE then t1 else t0
  Except.ok (sparse_table, dense_table)

/-- ASCII reading of Python regex `\s` (the whitespace class used by
`re.sub` and `str.split`/`str.strip` in `clean_tsquery`). -/
def isPySpace (c : Char) : Bool :=
  c = ' ' || c = '\t' || c = '\n' || c = '\r' || c = '\x0b' || c = '\x0c'

/-- ASCII reading of Python regex `\w` (letters, digits, underscore). -/
def isPyWord (c : Char) : Bool :=
  c.isAlphanum || c = '_'

/-- `re.sub(r'[^\w\s]', ' ', s)` (`search/_postgres.py` line 40): every
character that is neither a word character nor whitespace is replaced by a
space. -/
def subNonWordToSpace (l : List Char) : List Char :=
  l.map (fun c => if isPyWord c || isPySpace c then c else ' ')

/-- `re.sub(r'\s+', ' ', s)` (`search/_postgres.py` line 41): each maximal
run of whitespace is replaced by a single space.  The `Bool` argument
records whether the previous character belonged to a run already emitted. -/
def collapseWsAux : Bool → List Char → List Char
  | _, [] => []
  | prevSpace, c :: rest =>
    if isPySpace c then
      if prevSpace then collapseWsAux true rest
      else ' ' :: collapseWsAux true rest
    else c :: collapseWsAux false rest

/-- `re.sub(r'\s+', ' ', s)` on a whole string. -/
def collapseWs (l : List Char) : List Char :=
  collapseWsAux false l

/-- Python `str.strip()`: remove leading and trailing whitespace. -/
def pyStrip (l : List Char) : List Char :=
  ((l.dropWhile isPySpace).reverse.dropWhile isPySpace).reverse

/-- Python `str.split()` with no separator: split on whitespace runs,
producing no empty tokens.  `acc` holds the (reversed) current token. -/
def pySplitAux (acc : List Char) : List Char → List (List Char)
  | [] => if acc.isEmpty then [] else [acc.reverse]
  | c :: rest =>
    if isPySpace c then
      if acc.isEmpty then pySplitAux [] rest
      else acc.reverse :: pySplitAux [] rest
    else pySplitAux (c :: acc) rest

/-- Python `str.split()` with no separator. -/
def pySplitWs (l : List Char) : List (List Char) :=
  pySplitAux [] l

/-- `PostgresSearcher.clean_tsquery` (`search/_postgres.py` lines 38-43):
replace non-word non-space characters by spaces, collapse whitespace runs,
strip, split into terms, and join the terms with `" | "`. -/
def clean_tsquery (query_string : String) : String :=
  let cleaned1 := subNonWordToSpace query_string.toList
  let cleaned2 := pyStrip (collapseWs cleaned1)
  String.intercalate " | " ((pySplitWs cleaned2).map (fun t => String.mk t))

/-!
## Ranking windows and the RRF fusion pipeline

A retrieval source is a `List (String × ℚ)` of `(id, sort-key)` rows: the
sort key abstracts the evaluated score expression of the SQL query
(`embedding <=> %(vector)s::vector` for the dense source, ordered
ascending; `ts_rank(to_tsvector(..), query)` over the rows passing the
`@@` filter for the sparse source, ordered descending; the BM25 `<@>`
value in the pg_textsearch dialect, ordered ascending).  `LIMIT` is
modelled as keeping the first `n` rows of the window-ordered output, which
is the order in which Postgres emits rows after evaluating a window
function over the same ordering.
-/

/-- Ascending comparison on the sort key of a row. -/
def ascBy (a b : String × ℚ) : Prop := a.2 ≤ b.2

/-- Descending comparison on the sort key of a row. -/
def descBy (a b : String × ℚ) : Prop := b.2 ≤ a.2

instance : DecidableRel ascBy :=
  fun a b => inferInstanceAs (Decidable (a.2 ≤ b.2))

instance : DecidableRel descBy :=
  fun a b => inferInstanceAs (Decidable (b.2 ≤ a.2))

instance : IsTotal (String × ℚ) ascBy := ⟨fun a b => le_total a.2 b.2⟩

instance : IsTrans (String × ℚ) ascBy := ⟨fun _ _ _ h1 h2 => le_trans h1 h2⟩

instance : IsTotal (String × ℚ) descBy := ⟨fun a b => le_total b.2 a.2⟩

instance : IsTrans (String × ℚ) descBy := ⟨fun _ _ _ h1 h2 => le_trans h2 h1⟩

/-- Rows sorted ascending by sort key (SQL `ORDER BY key`); the sort is
stable, matching ties being left in table order. -/
def sortRowsAsc (rows : List (String × ℚ)) : List (String × ℚ) :=
  rows.insertionSort ascBy

/-- Rows sorted descending by sort key (SQL `ORDER BY key DESC`). -/
def sortRowsDesc (rows : List (String × ℚ)) : List (String × ℚ) :=
  rows.insertionSort descBy

/-- SQL `RANK () OVER (ORDER BY key)`: a row's rank is 1 plus the number
of rows with a strictly smaller key; the output is emitted in ascending
key order.  Tied rows share a rank and the following positions are
skipped. -/
def rankWindowAsc (rows : List (String × ℚ)) : List (String × ℕ) :=
  (sortRowsAsc rows).map
    (fun r => (r.1, 1 + (rows.filter (fun x => x.2 < r.2)).length))

/-- SQL `RANK () OVER (ORDER BY key DESC)`: 1 plus the number of rows with
a strictly larger key, emitted in descending key order. -/
def rankWindowDesc (rows : List (String × ℚ)) : List (String × ℕ) :=
  (sortRowsDesc rows).map
    (fun r => (r.1, 1 + (rows.filter (fun x => r.2 < x.2)).length))

/-- SQL `ROW_NUMBER () OVER (ORDER BY key)`: consecutive positions
1, 2, ... along the ascending key order. -/
def rowNumberWindowAsc (rows : List (String × ℚ)) : List (String × ℕ) :=
  (sortRowsAsc rows).enum.map (fun p => (p.2.1, p.1 + 1))

/-- The `semantic_search` CTE of `rrf_search`, default dialect
(`search/_postgres.py` lines 154-158): `RANK () OVER (ORDER BY embedding
<=> vec)` over the dense table, `LIMIT n`. -/
def semantic_search_cte (denseRows : List (String × ℚ)) (n : ℕ) :
    List (String × ℕ) :=
  (rankWindowAsc denseRows).take n

/-- The `keyword_search` CTE of `rrf_search`, default dialect
(`search/_postgres.py` lines 159-164): `RANK () OVER (ORDER BY ts_rank(..)
DESC)` over the sparse-table rows matching the `@@` filter, `LIMIT n`. -/
def keyword_search_cte (sparseMatches : List (String × ℚ)) (n : ℕ) :
    List (String × ℕ) :=
  (rankWindowDesc sparseMatches).take n

/-- The `vector_search` CTE of `rrf_search`, pg_textsearch dialect
(`search/_postgres.py` lines 115-121): `ROW_NUMBER () OVER (ORDER BY
embedding <=> vec)`, `ORDER BY` the same distance, `LIMIT n`. -/
def vector_search_cte (denseRows : List (String × ℚ)) (n : ℕ) :
    List (String × ℕ) :=
  (rowNumberWindowAsc denseRows).take n

/-- The `keyword_search` CTE of `rrf_search`, pg_textsearch dialect
(`search/_postgres.py` lines 122-130): `ROW_NUMBER () OVER (ORDER BY
contents <@> to_bm25query(..))`, `ORDER BY` the same value, `LIMIT n`. -/
def keyword_search_bm25_cte (sparseRows : List (String × ℚ)) (n : ℕ) :
    List (String × ℕ) :=
  (rowNumberWindowAsc sparseRows).take n

/-- The fused score of one output row of `rrf_search` (lines 131-133 and
165-168): `w_sem * COALESCE(1.0 / (k + semantic rank), 0.0) + w_key *
COALESCE(1.0 / (k + keyword rank), 0.0)`, where a rank is `none` when the
id is absent from that side of the `FULL OUTER JOIN`. -/
def fusedScore (weight_keyword weight_semantic k : ℚ)
    (rank_keyword rank_semantic : Option ℕ) : ℚ :=
  weight_semantic * (match rank_semantic with
    | some r => 1 / (k + (r : ℚ))
    | none => 0) +
  weight_keyword * (match rank_keyword with
    | some r => 1 / (k + (r : ℚ))
    | none => 0)

/-- The rank a join side contributes for an id: the first row of the CTE
output with that id, if any. -/
def lookupRank (l : List (String × ℕ)) (i : String) : Option ℕ :=
  (l.find? (fun r => r.1 == i)).map (fun r => r.2)

/-- The ids produced by `FULL OUTER JOIN ... ON semantic.id = keyword.id`
with `COALESCE(semantic.id, keyword.id)`: every id of the semantic side,
then the keyword-side ids that match no semantic row. -/
def fullOuterIds (sem keyw : List (String × ℕ)) : List String :=
  sem.map (fun r => r.1) ++
    (keyw.map (fun r => r.1)).filter (fun i => !(sem.any (fun r => r.1 == i)))

/-- The joined rows of `rrf_search` before `ORDER BY`/`LIMIT`
(lines 131-135 and 165-170): one row per id of the full outer join,
carrying its fused score. -/
def rrfCandidates (weight_keyword weight_semantic k : ℚ)
    (sem keyw : List (String × ℕ)) : List (String × ℚ) :=
  (fullOuterIds sem keyw).map
    (fun i => (i, fusedScore weight_keyword weight_semantic k
      (lookupRank keyw i) (lookupRank sem i)))

/-- The final `ORDER BY score DESC LIMIT n` of `rrf_search`
(lines 136-137 and 171-172) applied to the joined rows. -/
def rrfFuse (weight_keyword weight_semantic k : ℚ) (n : ℕ)
    (sem keyw : List (String × ℕ)) : List (String × ℚ) :=
  (sortRowsDesc (rrfCandidates weight_keyword weight_semantic k sem keyw)).take n

/-- `rrf_search`, default dialect (`search/_postgres.py` lines 151-178),
from the two CTEs to the fused, sorted, truncated result. -/
def rrf_search_default (weight_keyword weight_semantic k : ℚ) (n : ℕ)
    (denseRows sparseMatches : List (String × ℚ)) : List (String × ℚ) :=
  rrfFuse weight_keyword weight_semantic k n
    (semantic_search_cte denseRows n) (keyword_search_cte sparseMatches n)

/-- `rrf_search`, pg_textsearch dialect (`search/_postgres.py`
lines 112-150). -/
def rrf_search_textsearch (weight_keyword weight_semantic k : ℚ) (n : ℕ)
    (denseRows sparseRows : List (String × ℚ)) : List (String × ℚ) :=
  rrfFuse weight_keyword weight_semantic k n
    (vector_search_cte denseRows n) (keyword_search_bm25_cte sparseRows n)

/-!
## SQL text construction

Each searcher method builds one SQL string by Python f-string
interpolation and executes it with a tuple or dict of bound parameters.
`SqlQuery` records both: `text` is the f-string result (table names
interpolated, `%s` / `%(name)s` placeholders kept verbatim, whitespace
condensed), `params` the bound values in the order the code passes them,
rendered as strings.
-/

/-- A constructed SQL statement together with its bound parameters. -/
structure SqlQuery where
  text : String
  params : List String
deriving DecidableEq

/-- Modelled from the spec: `BM25_INDEX_TEMPLATE` lives in
`quackir.utils.constants`, which is not under `src/`; it derives a
per-table index name.  Every use in `search/_postgres.py` passes the
result as a bound parameter, so its exact shape is immaterial to the
claims. -/
def bm25IndexName (table_name : String) : String :=
  table_name ++ "_bm25_index"

/-- Text of `fts_search`, default dialect (lines 70-81), before the
interpolated table name. -/
def fts_sql_pre : String :=
  "SELECT id, ts_rank(to_tsvector(\x27simple\x27, contents), to_tsquery(\x27simple\x27, %s)) AS score FROM "

/-- Text of `fts_search`, default dialect, after the interpolated table
name. -/
def fts_sql_post : String :=
  " WHERE to_tsvector(\x27simple\x27, contents) @@ to_tsquery(\x27simple\x27, %s) ORDER BY score DESC LIMIT %s"

/-- Text of `fts_search`, pg_textsearch dialect (lines 60-66), before the
interpolated table name. -/
def fts_bm25_sql_pre : String :=
  "SELECT id, contents <@> to_bm25query(%(q)s, %(idx)s) AS score FROM \""

/-- Text of `fts_search`, pg_textsearch dialect, after the interpolated
table name. -/
def fts_bm25_sql_post : String :=
  "\" ORDER BY score LIMIT %(n)s"

/-- Text of `embedding_search` (line 87), before the interpolated table
name. -/
def embedding_sql_pre : String :=
  "select id, 1 - (embedding <=> %s::vector) as score from "

/-- Text of `embedding_search`, after the interpolated table name. -/
def embedding_sql_post : String :=
  " order by score desc limit %s"

/-- Text of `rrf_search`, default dialect (lines 153-173), before the
interpolated dense table name. -/
def rrf_sql_pre : String :=
  "WITH semantic_search AS (SELECT id, RANK () OVER (ORDER BY embedding <=> %(vector)s::vector) AS rank FROM "

/-- Text of `rrf_search`, default dialect, between the dense and sparse
table names. -/
def rrf_sql_mid : String :=
  " LIMIT %(n)s), keyword_search AS (SELECT id, RANK () OVER (ORDER BY ts_rank(to_tsvector(\x27simple\x27, contents), query) DESC) as rank FROM "

/-- Text of `rrf_search`, default dialect, after the interpolated sparse
table name. -/
def rrf_sql_post : String :=
  ", to_tsquery(\x27simple\x27, %(query)s) query WHERE to_tsvector(\x27simple\x27, contents) @@ query LIMIT %(n)s) SELECT COALESCE(semantic_search.id, keyword_search.id) AS id, %(w_sem)s * COALESCE(1.0 / (%(k)s + semantic_search.rank), 0.0) + %(w_key)s * COALESCE(1.0 / (%(k)s + keyword_search.rank), 0.0) AS score FROM semantic_search FULL OUTER JOIN keyword_search ON semantic_search.id = keyword_search.id ORDER BY score DESC LIMIT %(n)s"

/-- Text of `rrf_search`, pg_textsearch dialect (lines 114-138), before
the interpolated dense table name. -/
def rrf_bm25_sql_pre : String :=
  "WITH vector_search AS (SELECT id, ROW_NUMBER() OVER (ORDER BY embedding <=> %(vector)s::vector) AS rank FROM \""

/-- Text of `rrf_search`, pg_textsearch dialect, between the dense and
sparse table names. -/
def rrf_bm25_sql_mid : String :=
  "\" ORDER BY embedding <=> %(vector)s::vector LIMIT %(n)s), keyword_search AS (SELECT id, ROW_NUMBER() OVER (ORDER BY contents <@> to_bm25query(%(q)s, %(idx)s)) AS rank FROM \""

/-- Text of `rrf_search`, pg_textsearch dialect, after the interpolated
sparse table name. -/
def rrf_bm25_sql_post : String :=
  "\" ORDER BY contents <@> to_bm25query(%(q)s, %(idx)s) LIMIT %(n)s) SELECT COALESCE(v.id, k.id) AS id, %(w_sem)s * COALESCE(1.0 / (%(k)s + v.rank), 0.0) + %(w_key)s * COALESCE(1.0 / (%(k)s + k.rank), 0.0) AS score FROM vector_search v FULL OUTER JOIN keyword_search k ON v.id = k.id ORDER BY score DESC LIMIT %(n)s"

/-- The SQL statement issued by `PostgresSearcher.fts_search`
(`search/_postgres.py` lines 56-83): in the pg_textsearch dialect the raw
query string, the index name and `top_n` are bound; in the default dialect
`clean_tsquery(query_string)` is bound twice, then `top_n`. -/
def fts_search_query (use_pg_textsearch : Bool) (query_string : String)
    (top_n : ℕ) (table_name : String) : SqlQuery :=
  if use_pg_textsearch then
    { text := fts_bm25_sql_pre ++ table_name ++ fts_bm25_sql_post,
      params := [query_string, bm25IndexName table_name, toString top_n] }
  else
    let ts_query := clean_tsquery query_string
    { text := fts_sql_pre ++ table_name ++ fts_sql_post,
      params := [ts_query, ts_query, toString top_n] }

/-- The SQL statement issued by `PostgresSearcher.embedding_search`
(`search/_postgres.py` lines 85-89): the vector (a string) and `top_n` are
bound. -/
def embedding_search_query (query_embedding : String) (top_n : ℕ)
    (table_name : String) : SqlQuery :=
  { text := embedding_sql_pre ++ table_name ++ embedding_sql_post,
    params := [query_embedding, toString top_n] }

/-- The SQL statement issued by `PostgresSearcher.rrf_search`
(`search/_postgres.py` lines 111-177), after table-role resolution.
Parameters are listed in the order of the dict passed to `cur.execute`:
default dialect `query, vector, n, k, w_sem, w_key`; pg_textsearch dialect
`q, vector, n, k, idx, w_sem, w_key`. -/
def rrf_search_query (use_pg_textsearch : Bool)
    (query_string query_embedding : String) (top_n k : ℕ)
    (weight_keyword weight_semantic : ℚ)
    (dense_table sparse_table : String) : SqlQuery :=
  if use_pg_textsearch then
    { text := rrf_bm25_sql_pre ++ dense_table ++ rrf_bm25_sql_mid ++
        sparse_table ++ rrf_bm25_sql_post,
      params := [query_string, query_embedding, toString top_n, toString k,
        bm25IndexName sparse_table, toString weight_semantic,
        toString weight_keyword] }
  else
    { text := rrf_sql_pre ++ dense_table ++ rrf_sql_mid ++ sparse_table ++
        rrf_sql_post,
      params := [clean_tsquery query_string, query_embedding,
        toString top_n, toString k, toString weight_semantic,
        toString weight_keyword] }

/-- Modelled from the spec: the safe identifier pattern table names should
be validated against before interpolation (a letter or underscore followed
by word characters).  The source performs no such validation; this
definition exists to state that divergence. -/
def isSafeIdentifier (s : String) : Bool :=
  match s.toList with
  | [] => false
  | c :: rest => (c.isAlpha || c = '_') && rest.all (fun d => d.isAlphanum || d = '_')

/-- A message names a table when the table name occurs verbatim in it. -/
def namesTable (msg table_name : String) : Prop :=
  ∃ a b, msg = a ++ table_name ++ b

/-- A schema in which every table has only `id` and `embedding` columns,
so every table resolves to DENSE. -/
def twoDenseSchema : String → List String :=
  fun _ => ["id", "embedding"]

example : clean_tsquery "a.b" = "a | b" := by decide
example : clean_tsquery "Hello, world!  foo_bar" = "Hello | world | foo_bar" := by decide
example : rrf_resolve_tables
    (fun t => if t = "a" || t = "b" then ["id", "embedding"] else [])
    "a" "b" = Except.ok ("b", "b") := by rfl
example : isSafeIdentifier "corpus" = true := by decide
example : isSafeIdentifier "corpus; DROP TABLE x" = false := by decide

example :
    rrf_search_default 1 1 60 5
      [("d1", 1), ("d2", 2)] [("d1", 5), ("s1", 7)] =
    [("d1", 1/61 + 1/62), ("s1", 1/61), ("d2", 1/62)] := by
  simp [rrf_search_default, rrfFuse, rrfCandidates, fullOuterIds,
    semantic_search_cte, keyword_search_cte, rankWindowAsc, rankWindowDesc,
    sortRowsAsc, sortRowsDesc, ascBy, descBy, List.insertionSort,
    List.orderedInsert, List.filter, lookupRank, List.find?, fusedScore]
  norm_num [descBy]


/-!
## Helper lemmas
-/

theorem lookupRank_eq_some {l : List (String × ℕ)} {i : String} {r : ℕ}
    (hnd : (l.map (fun p => p.1)).Nodup) (hm : (i, r) ∈ l) :
    lookupRank l i = some r := by
  induction l with
  | nil => cases hm
  | cons a t ih =>
    rw [List.map_cons] at hnd
    have hnd' := List.nodup_cons.mp hnd
    rcases List.mem_cons.mp hm with he | ht
    · subst he
      simp [lookupRank, List.find?_cons_of_pos]
    · have hai : ¬((fun r : String × ℕ => r.1 == i) a) = true := by
        simp only [beq_iff_eq]
        intro h
        exact hnd'.1 (h ▸ List.mem_map_of_mem (fun p => p.1) ht)
      simp only [lookupRank]
      rw [List.find?_cons_of_neg t hai]
      exact ih hnd'.2 ht

theorem lookupRank_eq_none {l : List (String × ℕ)} {i : String}
    (h : i ∉ l.map (fun p => p.1)) : lookupRank l i = none := by
  have hf : l.find? (fun r => r.1 == i) = none :=
    List.find?_eq_none.mpr (fun x hx => by
      simp only [beq_iff_eq]
      intro hxi
      exact h (hxi ▸ List.mem_map_of_mem (fun p => p.1) hx))
  simp [lookupRank, hf]

theorem mem_fullOuterIds {sem keyw : List (String × ℕ)} {i : String} :
    i ∈ fullOuterIds sem keyw ↔
      i ∈ sem.map (fun p => p.1) ∨ i ∈ keyw.map (fun p => p.1) := by
  constructor
  · intro h
    rcases List.mem_append.mp h with h1 | h2
    · exact Or.inl h1
    · exact Or.inr (List.mem_filter.mp h2).1
  · rintro (h | h)
    · exact List.mem_append.mpr (Or.inl h)
    · by_cases hs : i ∈ sem.map (fun p => p.1)
      · exact List.mem_append.mpr (Or.inl hs)
      · refine List.mem_append.mpr (Or.inr (List.mem_filter.mpr ⟨h, ?_⟩))
        simp only [Bool.not_eq_eq_eq_not, Bool.not_true, List.any_eq_false,
          beq_iff_eq]
        intro x hx hxi
        exact hs (hxi ▸ List.mem_map_of_mem (fun p => p.1) hx)

theorem fusedScore_mem_rrfCandidates {wk ws k : ℚ}
    {sem keyw : List (String × ℕ)} {i : String}
    (h : i ∈ fullOuterIds sem keyw) :
    (i, fusedScore wk ws k (lookupRank keyw i) (lookupRank sem i)) ∈
      rrfCandidates wk ws k sem keyw :=
  List.mem_map_of_mem _ h

theorem sortRowsDesc_sorted (l : List (String × ℚ)) :
    List.Sorted descBy (sortRowsDesc l) :=
  List.sorted_insertionSort descBy l

theorem sortRowsDesc_perm (l : List (String × ℚ)) :
    (sortRowsDesc l).Perm l :=
  List.perm_insertionSort descBy l

theorem sortRowsAsc_sorted (l : List (String × ℚ)) :
    List.Sorted ascBy (sortRowsAsc l) :=
  List.sorted_insertionSort ascBy l

theorem sortRowsAsc_perm (l : List (String × ℚ)) :
    (sortRowsAsc l).Perm l :=
  List.perm_insertionSort ascBy l

theorem rrfFuse_pairwise (wk ws k : ℚ) (n : ℕ)
    (sem keyw : List (String × ℕ)) :
    (rrfFuse wk ws k n sem keyw).Pairwise
      (fun a b : String × ℚ => b.2 ≤ a.2) :=
  List.Pairwise.sublist (List.take_sublist n _)
    (sortRowsDesc_sorted (rrfCandidates wk ws k sem keyw))

theorem mem_rrfFuse {wk ws k : ℚ} {n : ℕ} {sem keyw : List (String × ℕ)}
    {x : String × ℚ} (h : x ∈ rrfFuse wk ws k n sem keyw) :
    x ∈ rrfCandidates wk ws k sem keyw :=
  (sortRowsDesc_perm _).mem_iff.mp
    (List.Sublist.mem h (List.take_sublist n _))

theorem pySplitAux_append_space {c : Char} (hc : isPySpace c = true) :
    ∀ (l acc : List Char), pySplitAux acc (l ++ [c]) = pySplitAux acc l := by
  intro l
  induction l with
  | nil =>
    intro acc
    by_cases h : acc.isEmpty <;> simp [pySplitAux, hc, h]
  | cons d rest ih =>
    intro acc
    by_cases hd : isPySpace d
    · by_cases h : acc.isEmpty <;>
        simp [pySplitAux, hd, h, List.cons_append, ih]
    · simp [pySplitAux, hd, List.cons_append, ih]

theorem pySplitAux_dropWhile (l : List Char) :
    pySplitAux [] (l.dropWhile isPySpace) = pySplitAux [] l := by
  induction l with
  | nil => rfl
  | cons c rest ih =>
    by_cases hc : isPySpace c
    · rw [List.dropWhile_cons_of_pos hc, ih]
      simp [pySplitAux, hc]
    · rw [List.dropWhile_cons_of_neg (by simpa using hc)]

theorem pySplitAux_dropTrailing (r : List Char) :
    pySplitAux [] ((r.dropWhile isPySpace).reverse) = pySplitAux [] r.reverse := by
  induction r with
  | nil => rfl
  | cons c rr ih =>
    by_cases hc : isPySpace c
    · rw [List.dropWhile_cons_of_pos hc, ih, List.reverse_cons,
        pySplitAux_append_space hc rr.reverse []]
    · rw [List.dropWhile_cons_of_neg (by simpa using hc)]

theorem pySplitWs_pyStrip (l : List Char) :
    pySplitWs (pyStrip l) = pySplitWs l := by
  show pySplitAux [] (pyStrip l) = pySplitAux [] l
  unfold pyStrip
  have h1 := pySplitAux_dropTrailing ((l.dropWhile isPySpace).reverse)
  rw [List.reverse_reverse] at h1
  rw [h1, pySplitAux_dropWhile]

theorem pySplitAux_collapse (l : List Char) :
    (∀ acc, pySplitAux acc (collapseWsAux false l) = pySplitAux acc l)
  ∧ pySplitAux [] (collapseWsAux true l) = pySplitAux [] l := by
  induction l with
  | nil => exact ⟨fun _ => rfl, rfl⟩
  | cons c rest ih =>
    obtain ⟨ihf, iht⟩ := ih
    constructor
    · intro acc
      by_cases hc : isPySpace c
      · by_cases h : acc.isEmpty <;>
          simp [collapseWsAux, pySplitAux, hc, h, iht,
            show isPySpace ' ' = true from rfl]
      · simp only [collapseWsAux, hc, Bool.false_eq_true, if_false,
          pySplitAux]
        simp [pySplitAux, hc, ihf]
    · by_cases hc : isPySpace c
      · simp [collapseWsAux, pySplitAux, hc, iht]
      · simp only [collapseWsAux, hc, Bool.false_eq_true, if_false]
        simp only [pySplitAux, hc, Bool.false_eq_true, if_false]
        exact ihf [c]

theorem pySplitWs_collapseWs (l : List Char) :
    pySplitWs (collapseWs l) = pySplitWs l :=
  (pySplitAux_collapse l).1 []

theorem clean_tsquery_terms (q : String) :
    clean_tsquery q = String.intercalate " | "
      ((pySplitWs (subNonWordToSpace q.toList)).map (fun t => String.mk t)) := by
  simp only [clean_tsquery]
  rw [pySplitWs_pyStrip, pySplitWs_collapseWs]

/-!
## Claims
-/

/-- C2 (counterexample): in a schema where both supplied tables resolve to
DENSE, `rrf_search` raises nothing at the table-resolution step: it
returns a fallback assignment in which both the sparse and the dense roles
are given to the second table, so retrieval proceeds instead of failing
with `AmbiguousFusionTables`. -/
theorem C2_ambiguous_tables_counterexample :
    get_search_type twoDenseSchema "sparse" = Except.ok SearchType.DENSE
  ∧ get_search_type twoDenseSchema "dense" = Except.ok SearchType.DENSE
  ∧ rrf_resolve_tables twoDenseSchema "sparse" "dense" =
      Except.ok ("dense", "dense") :=
  ⟨rfl, rfl, rfl⟩

/-- C2 (amended): when both supplied tables resolve to the same kind,
`rrf_search` does not fail; the fallback branches of the two conditionals
assign both roles to the same table — the second table when both are
DENSE, the first when both are SPARSE. -/
theorem C2_same_kind_fallback (schema : String → List String)
    (t0 t1 : String) :
    (get_search_type schema t0 = Except.ok SearchType.DENSE →
     get_search_type schema t1 = Except.ok SearchType.DENSE →
     rrf_resolve_tables schema t0 t1 = Except.ok (t1, t1))
  ∧ (get_search_type schema t0 = Except.ok SearchType.SPARSE →
     get_search_type schema t1 = Except.ok SearchType.SPARSE →
     rrf_resolve_tables schema t0 t1 = Except.ok (t0, t0)) := by
  constructor
  · intro h0 h1
    simp only [rrf_resolve_tables, h0, h1]
    rfl
  · intro h0 h1
    simp only [rrf_resolve_tables, h0, h1]
    rfl

/-- Witness for `C2_same_kind_fallback` at a concrete schema. -/
theorem C2_same_kind_fallback_witness :
    rrf_resolve_tables twoDenseSchema "sparse" "dense" =
      Except.ok ("dense", "dense") :=
  (C2_same_kind_fallback twoDenseSchema "sparse" "dense").1 rfl rfl

/-- C5: the index type resolvers return SPARSE when a `contents` column is
present, DENSE when `contents` is absent but `embedding` is present, and
fail with the unknown-type `ValueError` naming the offending table exactly
when both are absent. -/
theorem C5_index_type_resolution (schema : String → List String)
    (t : String) :
    ("contents" ∈ schema t →
      get_search_type schema t = Except.ok SearchType.SPARSE
    ∧ get_index_type schema t = Except.ok IndexType.SPARSE)
  ∧ ("contents" ∉ schema t → "embedding" ∈ schema t →
      get_search_type schema t = Except.ok SearchType.DENSE
    ∧ get_index_type schema t = Except.ok IndexType.DENSE)
  ∧ ("contents" ∉ schema t → "embedding" ∉ schema t →
      get_search_type schema t = Except.error (unknown_search_type_message t)
    ∧ get_index_type schema t = Except.error (unknown_index_type_message t)
    ∧ namesTable (unknown_search_type_message t) t
    ∧ namesTable (unknown_index_type_message t) t) := by
  refine ⟨fun hc => ?_, fun hc he => ?_, fun hc he => ?_⟩
  · constructor <;> simp [get_search_type, get_index_type, hc]
  · constructor <;> simp [get_search_type, get_index_type, hc, he]
  · refine ⟨by simp [get_search_type, hc, he],
      by simp [get_index_type, hc, he],
      ⟨"Unknown search type for table ",
        ". Ensure it has either an \x27embedding\x27 column or a \x27contents\x27 column.",
        rfl⟩,
      ⟨"Unknown index type for table ",
        ". Ensure it has either an \x27embedding\x27 column or a \x27contents\x27 column.",
        rfl⟩⟩

/-- Witness for `C5_index_type_resolution` at concrete schemas. -/
theorem C5_index_type_resolution_witness :
    get_search_type (fun _ => ["id"]) "corpus" =
      Except.error (unknown_search_type_message "corpus")
  ∧ get_search_type (fun _ => ["id", "contents"]) "corpus" =
      Except.ok SearchType.SPARSE
  ∧ get_search_type (fun _ => ["id", "embedding"]) "corpus" =
      Except.ok SearchType.DENSE :=
  ⟨((C5_index_type_resolution (fun _ => ["id"]) "corpus").2.2
      (by decide) (by decide)).1,
   ((C5_index_type_resolution (fun _ => ["id", "contents"]) "corpus").1
      (by decide)).1,
   ((C5_index_type_resolution (fun _ => ["id", "embedding"]) "corpus").2.1
      (by decide) (by decide)).1⟩

/-- C10: when a table has both a `contents` and an `embedding` column the
resolvers classify it SPARSE (the `contents` check comes first), and a
DENSE result can only arise when `contents` is absent. -/
theorem C10_contents_precedence (schema : String → List String)
    (t : String) :
    ("contents" ∈ schema t → "embedding" ∈ schema t →
      get_search_type schema t = Except.ok SearchType.SPARSE
    ∧ get_index_type schema t = Except.ok IndexType.SPARSE)
  ∧ (get_search_type schema t = Except.ok SearchType.DENSE →
      "contents" ∉ schema t)
  ∧ (get_index_type schema t = Except.ok IndexType.DENSE →
      "contents" ∉ schema t) := by
  refine ⟨fun hc _ => ?_, fun h hc => ?_, fun h hc => ?_⟩
  · constructor <;> simp [get_search_type, get_index_type, hc]
  · simp [get_search_type, hc] at h
  · simp [get_index_type, hc] at h

/-- Witness for `C10_contents_precedence` at a concrete schema. -/
theorem C10_contents_precedence_witness :
    get_search_type (fun _ => ["id", "contents", "embedding"]) "corpus" =
      Except.ok SearchType.SPARSE :=
  ((C10_contents_precedence (fun _ => ["id", "contents", "embedding"])
      "corpus").1 (by decide) (by decide)).1

/-- C7: with both rank lists empty (and with both source tables empty),
the fusion returns the empty list in both dialects; no error path
exists. -/
theorem C7_empty_inputs (wk ws k : ℚ) (n : ℕ) :
    rrfFuse wk ws k n [] [] = []
  ∧ rrf_search_default wk ws k n [] [] = []
  ∧ rrf_search_textsearch wk ws k n [] [] = [] := by
  refine ⟨?_, ?_, ?_⟩ <;>
    simp [rrfFuse, rrf_search_default, rrf_search_textsearch, rrfCandidates,
      fullOuterIds, sortRowsDesc, semantic_search_cte, keyword_search_cte,
      vector_search_cte, keyword_search_bm25_cte, rankWindowAsc,
      rankWindowDesc, rowNumberWindowAsc, sortRowsAsc, List.insertionSort,
      List.take_nil]

/-- C8: with positive smoothing constant and non-negative weights, moving
an id to a later rank position on either side never increases its fused
score. -/
theorem C8_score_monotone (wk ws k : ℚ) (r r2 : ℕ) (rs rd : Option ℕ)
    (hk : 0 < k) (hwk : 0 ≤ wk) (hws : 0 ≤ ws) (hr : r ≤ r2) :
    fusedScore wk ws k (some r2) rd ≤ fusedScore wk ws k (some r) rd
  ∧ fusedScore wk ws k rs (some r2) ≤ fusedScore wk ws k rs (some r) := by
  have hpos : (0:ℚ) < k + r := by
    have h0 : (0:ℚ) ≤ (r:ℚ) := Nat.cast_nonneg r
    linarith
  have hle : (k + (r:ℚ)) ≤ k + r2 := by
    have h0 : (r:ℚ) ≤ (r2:ℚ) := Nat.cast_le.mpr hr
    linarith
  have hdiv : 1 / (k + (r2:ℚ)) ≤ 1 / (k + r) :=
    one_div_le_one_div_of_le hpos hle
  constructor
  · simp only [fusedScore]
    exact add_le_add_left (mul_le_mul_of_nonneg_left hdiv hwk) _
  · simp only [fusedScore]
    exact add_le_add_right (mul_le_mul_of_nonneg_left hdiv hws) _

/-- Witness for `C8_score_monotone` at concrete ranks 1 and 2. -/
theorem C8_score_monotone_witness :
    fusedScore 1 1 60 (some 2) none ≤ fusedScore 1 1 60 (some 1) none :=
  (C8_score_monotone 1 1 60 1 2 none none (by norm_num) (by norm_num)
    (by norm_num) (by norm_num)).1

/-- C9 (counterexample): a table name failing the safe identifier pattern
is still interpolated verbatim into the SQL text of both search
operations — the source performs no identifier validation. -/
theorem C9_identifier_validation_counterexample :
    isSafeIdentifier "corpus; DROP TABLE users --" = false
  ∧ (fts_search_query false "q" 5 "corpus; DROP TABLE users --").text =
      fts_sql_pre ++ "corpus; DROP TABLE users --" ++ fts_sql_post
  ∧ (rrf_search_query false "q" "[1,2]" 5 60 1 1 "dense"
      "corpus; DROP TABLE users --").text =
      rrf_sql_pre ++ "dense" ++ rrf_sql_mid ++
        "corpus; DROP TABLE users --" ++ rrf_sql_post :=
  ⟨by decide, rfl, rfl⟩

/-- C9 (amended): user-supplied query text and vectors are only ever bound
parameters — the constructed SQL text is identical across calls that
differ only in them — but table names are interpolated into the SQL text
verbatim, with no validation against any identifier pattern. -/
theorem C9_parameterized_queries (b : Bool) (q q2 e e2 : String) (n k : ℕ)
    (wk ws : ℚ) (d s tbl : String) :
    (fts_search_query b q n tbl).text = (fts_search_query b q2 n tbl).text
  ∧ (embedding_search_query e n tbl).text =
      (embedding_search_query e2 n tbl).text
  ∧ (rrf_search_query b q e n k wk ws d s).text =
      (rrf_search_query b q2 e2 n k wk ws d s).text
  ∧ (isSafeIdentifier tbl = false →
      (fts_search_query false q n tbl).text =
        fts_sql_pre ++ tbl ++ fts_sql_post
    ∧ (rrf_search_query false q e n k wk ws d tbl).text =
        rrf_sql_pre ++ d ++ rrf_sql_mid ++ tbl ++ rrf_sql_post) := by
  cases b <;> exact ⟨rfl, rfl, rfl, fun _ => ⟨rfl, rfl⟩⟩

/-- Witness for `C9_parameterized_queries` at a concrete unsafe table
name. -/
theorem C9_parameterized_queries_witness :
    (fts_search_query false "q" 5 "corpus; DROP TABLE x").text =
      fts_sql_pre ++ "corpus; DROP TABLE x" ++ fts_sql_post :=
  ((C9_parameterized_queries false "q" "q" "e" "e" 5 60 1 1 "d" "s"
      "corpus; DROP TABLE x").2.2.2 (by decide)).1

/-- C4 (counterexample): in the pg_textsearch dialect the raw query string
is bound, not its normalization: for the query `"a.b"` both `fts_search`
and `rrf_search` bind `"a.b"` itself, while the normalization would
produce `"a | b"`. -/
theorem C4_normalization_counterexample :
    (fts_search_query true "a.b" 5 "corpus").params.head? = some "a.b"
  ∧ (rrf_search_query true "a.b" "[1]" 5 60 1 1 "dense" "sparse").params.head? =
      some "a.b"
  ∧ clean_tsquery "a.b" = "a | b"
  ∧ "a.b" ≠ "a | b" :=
  ⟨rfl, rfl, by decide, by decide⟩

/-- C4 (amended): in the default dialect both the standalone sparse path
and the fusion internal ranking path bind exactly
`clean_tsquery(query_string)`; in the pg_textsearch dialect both paths
bind the raw query string, applying no normalization.  The normalization
itself replaces every character that is neither a word character nor
whitespace by a space, splits on whitespace runs, and joins the terms
with an OR connective (the collapse and strip steps of the source change
no token). -/
theorem C4_normalization_paths (q e : String) (n k : ℕ) (wk ws : ℚ)
    (t d s : String) :
    (fts_search_query false q n t).params =
      [clean_tsquery q, clean_tsquery q, toString n]
  ∧ (rrf_search_query false q e n k wk ws d s).params.head? =
      some (clean_tsquery q)
  ∧ (fts_search_query true q n t).params.head? = some q
  ∧ (rrf_search_query true q e n k wk ws d s).params.head? = some q
  ∧ clean_tsquery q = String.intercalate " | "
      ((pySplitWs (subNonWordToSpace q.toList)).map (fun l => String.mk l)) :=
  ⟨rfl, rfl, rfl, rfl, clean_tsquery_terms q⟩

/-- C1: for any pair of rank lists (each with distinct ids, as ids are
primary keys), the full outer join assigns every id the fused score
`weight_semantic * (1/(k + dense rank) | 0) + weight_keyword *
(1/(k + sparse rank) | 0)`; an id on both sides gets exactly the sum of
the two reciprocal terms; the result is the candidate list sorted by
fused score descending and truncated to `top_n`. -/
theorem C1_rrf_fused_score (wk ws k : ℚ) (n : ℕ)
    (sem keyw : List (String × ℕ))
    (hsem : (sem.map (fun p => p.1)).Nodup)
    (hkey : (keyw.map (fun p => p.1)).Nodup) :
    (∀ i, i ∈ fullOuterIds sem keyw →
      (i, fusedScore wk ws k (lookupRank keyw i) (lookupRank sem i)) ∈
        rrfCandidates wk ws k sem keyw)
  ∧ (∀ i rs rd, (i, rs) ∈ keyw → (i, rd) ∈ sem →
      (i, ws * (1 / (k + (rd:ℚ))) + wk * (1 / (k + (rs:ℚ)))) ∈
        rrfCandidates wk ws k sem keyw)
  ∧ (∀ i rd, (i, rd) ∈ sem → i ∉ keyw.map (fun p => p.1) →
      (i, ws * (1 / (k + (rd:ℚ)))) ∈ rrfCandidates wk ws k sem keyw)
  ∧ (∀ i rs, (i, rs) ∈ keyw → i ∉ sem.map (fun p => p.1) →
      (i, wk * (1 / (k + (rs:ℚ)))) ∈ rrfCandidates wk ws k sem keyw)
  ∧ rrfFuse wk ws k n sem keyw =
      (sortRowsDesc (rrfCandidates wk ws k sem keyw)).take n
  ∧ (rrfFuse wk ws k n sem keyw).Pairwise
      (fun a b : String × ℚ => b.2 ≤ a.2)
  ∧ (rrfFuse wk ws k n sem keyw).length ≤ n := by
  refine ⟨?_, ?_, ?_, ?_, rfl, rrfFuse_pairwise wk ws k n sem keyw,
    List.length_take_le n _⟩
  · intro i hi
    exact fusedScore_mem_rrfCandidates hi
  · intro i rs rd hks hsd
    have h1 : lookupRank keyw i = some rs := lookupRank_eq_some hkey hks
    have h2 : lookupRank sem i = some rd := lookupRank_eq_some hsem hsd
    have hi : i ∈ fullOuterIds sem keyw :=
      mem_fullOuterIds.mpr (Or.inl (List.mem_map_of_mem (fun p => p.1) hsd))
    have hmem := @fusedScore_mem_rrfCandidates wk ws k sem keyw i hi
    rw [h1, h2] at hmem
    exact hmem
  · intro i rd hsd hnk
    have h1 : lookupRank keyw i = none := lookupRank_eq_none hnk
    have h2 : lookupRank sem i = some rd := lookupRank_eq_some hsem hsd
    have hi : i ∈ fullOuterIds sem keyw :=
      mem_fullOuterIds.mpr (Or.inl (List.mem_map_of_mem (fun p => p.1) hsd))
    have hmem := @fusedScore_mem_rrfCandidates wk ws k sem keyw i hi
    rw [h1, h2] at hmem
    simpa [fusedScore] using hmem
  · intro i rs hks hns
    have h1 : lookupRank keyw i = some rs := lookupRank_eq_some hkey hks
    have h2 : lookupRank sem i = none := lookupRank_eq_none hns
    have hi : i ∈ fullOuterIds sem keyw :=
      mem_fullOuterIds.mpr (Or.inr (List.mem_map_of_mem (fun p => p.1) hks))
    have hmem := @fusedScore_mem_rrfCandidates wk ws k sem keyw i hi
    rw [h1, h2] at hmem
    simpa [fusedScore] using hmem

/-- Witness for `C1_rrf_fused_score` on one-element rank lists. -/
theorem C1_rrf_fused_score_witness :
    ("d1", fusedScore 1 1 60 (lookupRank [("s1", 1)] "d1")
        (lookupRank [("d1", 1)] "d1")) ∈
      rrfCandidates 1 1 60 [("d1", 1)] [("s1", 1)]
  ∧ ("d1", (1:ℚ) * (1 / (60 + ((1:ℕ):ℚ)))) ∈
      rrfCandidates 1 1 60 [("d1", 1)] [("s1", 1)] :=
  ⟨(C1_rrf_fused_score 1 1 60 5 [("d1", 1)] [("s1", 1)] (by decide)
      (by decide)).1 "d1" (by decide),
   (C1_rrf_fused_score 1 1 60 5 [("d1", 1)] [("s1", 1)] (by decide)
      (by decide)).2.2.1 "d1" 1 (by decide) (by decide)⟩

/-- C6: the fused result ids are a subset of the union of the two rank
lists' ids; every id of that union enters the candidate pool before
truncation; and an id present in exactly one list competes with its
single reciprocal term. -/
theorem C6_candidacy_union (wk ws k : ℚ) (n : ℕ)
    (sem keyw : List (String × ℕ))
    (hkey : (keyw.map (fun p => p.1)).Nodup) :
    (∀ x, x ∈ rrfFuse wk ws k n sem keyw →
      x.1 ∈ sem.map (fun p => p.1) ∨ x.1 ∈ keyw.map (fun p => p.1))
  ∧ (∀ i, (i ∈ sem.map (fun p => p.1) ∨ i ∈ keyw.map (fun p => p.1)) →
      (i, fusedScore wk ws k (lookupRank keyw i) (lookupRank sem i)) ∈
        rrfCandidates wk ws k sem keyw)
  ∧ (∀ i rs, (i, rs) ∈ keyw → i ∉ sem.map (fun p => p.1) →
      (i, wk * (1 / (k + (rs:ℚ)))) ∈ rrfCandidates wk ws k sem keyw) := by
  refine ⟨?_, ?_, ?_⟩
  · intro x hx
    have hc := mem_rrfFuse hx
    rcases List.mem_map.mp hc with ⟨i, hi, hxi⟩
    have hx1 : x.1 = i := by rw [← hxi]
    rw [hx1]
    exact mem_fullOuterIds.mp hi
  · intro i hi
    exact fusedScore_mem_rrfCandidates (mem_fullOuterIds.mpr hi)
  · intro i rs hks hns
    have h1 : lookupRank keyw i = some rs := lookupRank_eq_some hkey hks
    have h2 : lookupRank sem i = none := lookupRank_eq_none hns
    have hi : i ∈ fullOuterIds sem keyw :=
      mem_fullOuterIds.mpr (Or.inr (List.mem_map_of_mem (fun p => p.1) hks))
    have hmem := @fusedScore_mem_rrfCandidates wk ws k sem keyw i hi
    rw [h1, h2] at hmem
    simpa [fusedScore] using hmem

/-- Witness for `C6_candidacy_union`: a keyword-only id competes with its
single term. -/
theorem C6_candidacy_union_witness :
    ("s1", (1:ℚ) * (1 / (60 + ((1:ℕ):ℚ)))) ∈
      rrfCandidates 1 1 60 [("d1", 1)] [("s1", 1)] :=
  (C6_candidacy_union 1 1 60 5 [("d1", 1)] [("s1", 1)] (by decide)).2.2
    "s1" 1 (by decide) (by decide)

/-- C3 (counterexample): in the default dialect the keyword CTE uses
`RANK ()`, so two distinct rows whose `ts_rank` scores tie both receive
rank position 1 and no row receives position 2 — the positions are
neither distinct nor consecutive.  The pg_textsearch dialect's
`ROW_NUMBER ()` would give the same two rows positions 1 and 2. -/
theorem C3_rank_ties_counterexample :
    (keyword_search_cte [("a", 1), ("b", 1)] 5).map (fun p => p.2) = [1, 1]
  ∧ keyword_search_cte [("a", 1), ("b", 1)] 5 = [("a", 1), ("b", 1)]
  ∧ ("a" : String) ≠ "b"
  ∧ (keyword_search_bm25_cte [("a", 1), ("b", 1)] 5).map (fun p => p.2) =
      [1, 2] :=
  ⟨by decide, by decide, by decide, by decide⟩

/-- C3 (amended): each source contributes the first `top_n` rows of its
window output, ordered by that source's own ordering (ascending vector
distance for dense, descending text-rank for sparse), with 1-based
positions determined purely by that ordering; in the pg_textsearch
dialect (`ROW_NUMBER`) the positions are distinct and consecutive
1, 2, ..., while in the default dialect (`RANK`) a row's position is one
plus the number of strictly better rows, so tied rows share a position
and the following positions are skipped. -/
theorem C3_rank_positions (n : ℕ)
    (denseRows sparseMatches sparseRows : List (String × ℚ)) :
    semantic_search_cte denseRows n = (rankWindowAsc denseRows).take n
  ∧ keyword_search_cte sparseMatches n = (rankWindowDesc sparseMatches).take n
  ∧ (∀ i s, (i, s) ∈ denseRows →
      (i, 1 + (denseRows.filter (fun x => x.2 < s)).length) ∈
        rankWindowAsc denseRows)
  ∧ (∀ i s, (i, s) ∈ sparseMatches →
      (i, 1 + (sparseMatches.filter (fun x => s < x.2)).length) ∈
        rankWindowDesc sparseMatches)
  ∧ (∀ p, p ∈ rankWindowAsc denseRows → 1 ≤ p.2)
  ∧ (rankWindowAsc denseRows).Pairwise (fun a b : String × ℕ => a.2 ≤ b.2)
  ∧ (rankWindowDesc sparseMatches).Pairwise
      (fun a b : String × ℕ => a.2 ≤ b.2)
  ∧ (rowNumberWindowAsc sparseRows).map (fun p => p.2) =
      List.range' 1 sparseRows.length := by
  refine ⟨rfl, rfl, ?_, ?_, ?_, ?_, ?_, ?_⟩
  · intro i s h
    exact List.mem_map_of_mem _ ((sortRowsAsc_perm denseRows).mem_iff.mpr h)
  · intro i s h
    exact List.mem_map_of_mem _
      ((sortRowsDesc_perm sparseMatches).mem_iff.mpr h)
  · intro p hp
    rcases List.mem_map.mp hp with ⟨r, _, hr⟩
    rw [← hr]
    exact Nat.le_add_right 1 _
  · refine List.Pairwise.map _ ?_ (sortRowsAsc_sorted denseRows)
    intro a b hab
    have hcnt : (denseRows.filter (fun x => x.2 < a.2)).length ≤
        (denseRows.filter (fun x => x.2 < b.2)).length := by
      rw [← List.countP_eq_length_filter, ← List.countP_eq_length_filter]
      refine List.countP_mono_left ?_
      intro x _ hx
      have hxa : x.2 < a.2 := by simpa using hx
      simpa using lt_of_lt_of_le hxa hab
    exact Nat.add_le_add_left hcnt 1
  · refine List.Pairwise.map _ ?_ (sortRowsDesc_sorted sparseMatches)
    intro a b hab
    have hcnt : (sparseMatches.filter (fun x => a.2 < x.2)).length ≤
        (sparseMatches.filter (fun x => b.2 < x.2)).length := by
      rw [← List.countP_eq_length_filter, ← List.countP_eq_length_filter]
      refine List.countP_mono_left ?_
      intro x _ hx
      have hxa : a.2 < x.2 := by simpa using hx
      simpa using lt_of_le_of_lt hab hxa
    exact Nat.add_le_add_left hcnt 1
  · have h1 : (rowNumberWindowAsc sparseRows).map (fun p => p.2) =
        (sortRowsAsc sparseRows).enum.map (fun p => p.1 + 1) := by
      simp [rowNumberWindowAsc, List.map_map, Function.comp]
    rw [h1, List.range'_eq_map_range,
      ← (sortRowsAsc_perm sparseRows).length_eq, ← List.enum_map_fst,
      List.map_map]
    exact List.map_congr_left
      (fun a _ => by simp [Function.comp, Nat.add_comm])

/-- Witness for `C3_rank_positions` at a concrete two-row source. -/
theorem C3_rank_positions_witness :
    ("d2", 1 + ([(("d1":String), (1:ℚ)), ("d2", 2)].filter
        (fun x => x.2 < 2)).length) ∈
      rankWindowAsc [("d1", 1), ("d2", 2)] :=
  (C3_rank_positions 5 [("d1", 1), ("d2", 2)] [] []).2.2.1 "d2" 2 (by decide)
